import Mathlib

/-!
# Verification of the ZK-NFS namespace tree, store, lock manager and session protocol

Shallow embedding of the Python sources under `src/nfs/` (`fs/FileNode.py`,
`fs/DirectoryNode.py`, `fs/FileSystem.py`, `zk.py`, `client.py`, `server.py`).

Modelling conventions:
* `pathlib.Path` values are modelled by their `parts` tuple, a `List String`
  whose first element is `"/"` for absolute paths (matching `Path.parts`).
* `time.time()` is modelled by an explicit `now : Nat` argument to every
  operation that stamps a timestamp.
* Python `dict` (insertion ordered, unique keys) is modelled by an
  association list; assignment replaces in place, fresh keys are appended.
* Python exceptions are modelled with `Except Err`; operations that can
  mutate state before raising return the resulting state alongside the
  `Except` value, so that an error result also records the (possibly
  partially mutated) tree, exactly as in-place mutation behaves in Python.
* Python object references into the tree (e.g. `current_dir` during
  `FileSystem` traversals) are modelled as key paths from the root, since
  the tree has no aliasing; mutation through a reference becomes a
  functional update at that key path.
* `hashlib.sha256(s.encode()).hexdigest()` is modelled by an injective
  encoding of `s`: every property below depends only on *which* string is
  hashed, never on the digest format, and sha256 collisions are out of
  scope.
-/

/-- Models `hashlib.sha256(s.encode()).hexdigest()` by an injective encoding
of the hashed string (see header). -/
def sha256hex (s : String) : String := "sha256:" ++ s

/-- Python exception taxonomy raised by the sources. -/
inductive Err where
  | fileExists (msg : String)
  | fileNotFound (msg : String)
  | notEmpty (msg : String)      -- `EnvironmentError("Directory is not empty.")`
  | typeError (msg : String)
  | valueError (msg : String)
  | indexError (msg : String)
  | keyError (msg : String)
  | attributeError (msg : String)
  | nodeExists (msg : String)    -- kazoo `NodeExistsError`
  | noNode (msg : String)        -- kazoo `NoNodeError`
  deriving DecidableEq, Repr

/-! ## Paths (`pathlib.Path` modelled by its `parts`) -/

/-- Split a character list on `'/'`, accumulating the current segment
(in reverse) in `acc`; models the tokenisation done by `pathlib`. -/
def splitSegsAux : List Char → List Char → List String
  | [], acc => [String.mk acc.reverse]
  | c :: cs, acc =>
    if c = '/' then String.mk acc.reverse :: splitSegsAux cs []
    else splitSegsAux cs (c :: acc)

/-- `Path(s).parts`: spurious slashes and single dots are collapsed by
`pathlib`; an absolute path gets `"/"` as its first part. -/
def parsePath (s : String) : List String :=
  let toks := (splitSegsAux s.toList []).filter fun t => ¬(t = "" ∨ t = ".")
  if s.toList.head? = some '/' then "/" :: toks else toks

/-- `str(path)` / `path.as_posix()` on a parts list. -/
def pathStr (p : List String) : String :=
  match p with
  | [] => "."
  | "/" :: rest => "/" ++ String.intercalate "/" rest
  | parts => String.intercalate "/" parts

/-- `path.parent` on a parts list: drop the last part; the parent of the
root is the root and the parent of a single relative segment is `Path(".")`
(modelled as `[]`). -/
def pathParent (p : List String) : List String :=
  match p with
  | [] => []
  | [x] => if x = "/" then ["/"] else []
  | _ => p.dropLast

/-! ## `FileNode` (src/nfs/fs/FileNode.py) -/

structure FileNode where
  name : String
  file_path : List String
  file_id : String
  size : Nat
  created_at : Nat
  modified_at : Nat
  deriving DecidableEq, Repr

/-- `FileNode.generate_file_id`: sha256 of `f"{self.name}{self.file_path}"`. -/
def FileNode.generate_file_id (f : FileNode) : String :=
  sha256hex (f.name ++ pathStr f.file_path)

/-- `FileNode.__init__(name, file_path)` at time `now`: size 0,
`created_at = modified_at = now`, id derived from name and path. -/
def FileNode.init (name : String) (file_path : List String) (now : Nat) : FileNode :=
  let f0 : FileNode :=
    { name := name, file_path := file_path, file_id := "", size := 0
      created_at := now, modified_at := now }
  { f0 with file_id := f0.generate_file_id }

/-- `FileNode.rename(new_name)`: the source updates `name`, then regenerates
`file_id` (still reading the *old* `file_path`), then updates `file_path`,
then stamps `modified_at` — in exactly that order. -/
def FileNode.rename (f : FileNode) (new_name : String) (now : Nat) : FileNode :=
  let f1 := { f with name := new_name }
  let f2 := { f1 with file_id := f1.generate_file_id }
  let f3 := { f2 with file_path := pathParent f2.file_path ++ [new_name] }
  { f3 with modified_at := now }

/-- `FileNode.move(path)`: sets `file_path`, regenerates the id (this time
*after* the path update), then `joinpath(parent, name)` (a no-op), then
stamps `modified_at`. -/
def FileNode.move (f : FileNode) (path : List String) (now : Nat) : FileNode :=
  let f1 := { f with file_path := path }
  let f2 := { f1 with file_id := f1.generate_file_id }
  let f3 := { f2 with file_path := pathParent f2.file_path ++ [f2.file_path.getLastD ""] }
  { f3 with modified_at := now }

/-! ## The namespace tree (src/nfs/fs/DirectoryNode.py) -/

/-- A tree entry: a `FileNode` leaf or a `DirectoryNode` with its ordered
`children` dict. -/
inductive FsNode where
  | file (f : FileNode)
  | dir (name : String) (children : List (String × FsNode))

/-- Python `dict` lookup `d.get(k)`. -/
def dictGet {α : Type} (d : List (String × α)) (k : String) : Option α :=
  match d with
  | [] => none
  | (k', v) :: rest => if k' = k then some v else dictGet rest k

/-- Python `dict` assignment `d[k] = v`: replaces an existing key in place,
appends a fresh key. -/
def dictSet {α : Type} (d : List (String × α)) (k : String) (v : α) : List (String × α) :=
  match d with
  | [] => [(k, v)]
  | (k', v') :: rest => if k' = k then (k, v) :: rest else (k', v') :: dictSet rest k v

/-- Python `del d[k]` / `d.pop(k)` (key presence checked by callers). -/
def dictDel {α : Type} (d : List (String × α)) (k : String) : List (String × α) :=
  match d with
  | [] => []
  | (k', v') :: rest => if k' = k then rest else (k', v') :: dictDel rest k

namespace DirectoryNode

/-- The `children` dict of a directory. -/
abbrev Children := List (String × FsNode)

/-- `DirectoryNode.create_directory(name)`. -/
def create_directory (cs : Children) (name : String) : Except Err (FsNode × Children) :=
  match dictGet cs name with
  | none =>
    let new_dir := FsNode.dir name []
    .ok (new_dir, dictSet cs name new_dir)
  | some _ => .error (.fileExists ("Directory " ++ name ++ " already exists"))

/-- `DirectoryNode.create_file(name, file_path)` at time `now`. -/
def create_file (cs : Children) (name : String) (file_path : List String) (now : Nat) :
    Except Err (FileNode × Children) :=
  match dictGet cs name with
  | none =>
    let new_file := FileNode.init name file_path now
    .ok (new_file, dictSet cs name (.file new_file))
  | some _ => .error (.fileExists ("File " ++ name ++ " already exists"))

/-- `DirectoryNode.mutate_file(name, file_node)` at time `now`: rejects a
falsy (empty) `name`, rejects an absent key, then stamps `modified_at` on
the *given* node and stores it under `name` — the existing child is *not*
required to be a file.  (The `not file_node` branch guards a `None`
argument, which the embedding cannot pass.) -/
def mutate_file (cs : Children) (name : String) (file_node : FileNode) (now : Nat) :
    Except Err (FileNode × Children) :=
  if name = "" then .error (.fileNotFound "File mutation has undefiend properties.")
  else
    match dictGet cs name with
    | none => .error (.fileNotFound ("File " ++ name ++ " does not exist in directory."))
    | some _ =>
      let f := { file_node with modified_at := now }
      .ok (f, dictSet cs name (.file f))

mutual
/-- `DirectoryNode._collect_file_ids(node)`: depth-first over the ordered
children, appending each `FileNode`'s id and recursing into directories. -/
def collect_file_ids : FsNode → List String
  | .file f => [f.file_id]
  | .dir _ cs => collect_file_ids_list cs
termination_by structural n => n

/-- The `for child in node.children.values()` loop of `_collect_file_ids`. -/
def collect_file_ids_list : List (String × FsNode) → List String
  | [] => []
  | (_, c) :: rest => collect_file_ids c ++ collect_file_ids_list rest
termination_by structural l => l
end

/-- `DirectoryNode.delete_directory(name, recursive)`: an empty directory is
removed and `[]` returned; a non-empty one with `recursive=True` only has
its descendant file ids *collected and returned* (the source never deletes
the subtree in that branch); otherwise `EnvironmentError`.  The second
component is the resulting `children` dict. -/
def delete_directory (cs : Children) (name : String) (recursive : Bool) :
    Except Err (List String) × Children :=
  match dictGet cs name with
  | some (.dir n dcs) =>
    if dcs.length = 0 then (.ok [], dictDel cs name)
    else if recursive then (.ok (collect_file_ids (.dir n dcs)), cs)
    else (.error (.notEmpty "Directory is not empty."), cs)
  | _ => (.error (.fileNotFound ("Directory " ++ name ++ " not found")), cs)

/-- `DirectoryNode.delete_file(name)`. -/
def delete_file (cs : Children) (name : String) : Except Err (FileNode × Children) :=
  match dictGet cs name with
  | some (.file f) => .ok (f, dictDel cs name)
  | _ => .error (.fileNotFound ("File " ++ name ++ " not found"))

/-- Write `new_name` into `parts[-(2+depth)]` (Python negative indexing on
`path.parts`, `IndexError` when out of range). -/
def setFromEnd (parts : List String) (k : Nat) (v : String) : Except Err (List String) :=
  if k ≤ parts.length ∧ 0 < k then
    .ok (parts.set (parts.length - k) v)
  else .error (.indexError "list assignment index out of range")

/-- `DirectoryNode._rename_directory_helper(new_name, node, depth)` over the
`children` of `node`: every `FileNode` child has `parts[-(2+depth)]` of its
path overwritten in place and contributes an `(old_id, new_id)` pair where
`new_id = child.generate_file_id()` is *computed but never assigned*; a
`DirectoryNode` child triggers `self._collect_file_ids(new_name, child,
depth + 1)` which raises `TypeError` (wrong arity).  Mutations made before
the raise persist, hence the resulting `children` are returned in both
cases. -/
def rename_directory_helper (new_name : String) (depth : Nat) :
    Children → Except Err (List (String × String)) × Children
  | [] => (.ok [], [])
  | (k, .file f) :: rest =>
    (match setFromEnd f.file_path (2 + depth) new_name with
     | .ok parts' =>
       let f' := { f with file_path := parts' }
       let old_id := f'.file_id
       let new_id := f'.generate_file_id
       match rename_directory_helper new_name depth rest with
       | (.ok pairs, rest') => (.ok ((old_id, new_id) :: pairs), (k, .file f') :: rest')
       | (.error e, rest') => (.error e, (k, .file f') :: rest')
     | .error e => (.error e, (k, .file f) :: rest))
  | (k, .dir n dcs) :: rest =>
    (.error (.typeError "_collect_file_ids() takes 2 positional arguments but 4 were given"),
     (k, .dir n dcs) :: rest)

/-- `DirectoryNode.rename_directory(old_name, new_name)`: renames the child
directory and re-keys it *before* running the helper, so a helper failure
leaves the top-level rename (and any earlier path rewrites) in place. -/
def rename_directory (cs : Children) (old_name new_name : String) :
    Except Err (List (String × String)) × Children :=
  match dictGet cs old_name with
  | some (.dir _ dcs) =>
    let cs1 := dictSet (dictDel cs old_name) new_name (.dir new_name dcs)
    let (r, dcs') := rename_directory_helper new_name 0 dcs
    (r, dictSet cs1 new_name (.dir new_name dcs'))
  | _ => (.error (.fileNotFound ("Directory " ++ old_name ++ " not found")), cs)

/-- `DirectoryNode.rename_file(old_name, new_name)`: `rename` the node (the
id changes), store it under `new_name`, delete `old_name`. -/
def rename_file (cs : Children) (old_name new_name : String) (now : Nat) :
    Except Err (FileNode × Children) :=
  match dictGet cs old_name with
  | some (.file f) =>
    let f' := f.rename new_name now
    .ok (f', dictDel (dictSet (dictSet cs old_name (.file f')) new_name (.file f')) old_name)
  | _ => .error (.fileNotFound ("File " ++ old_name ++ " not found"))

/-- The loop body of `DirectoryNode.get_file`: walk `path[1:]`, breaking as
soon as the segment names a `FileNode` child, descending into present
children and failing on absent ones; returns the final `current_dir`. -/
def get_file_walk (cs : Children) : List String → Except Err Children
  | [] => .ok cs
  | part :: rest =>
    match dictGet cs part with
    | some (.file _) => .ok cs
    | some (.dir _ dcs) => get_file_walk dcs rest
    | none => .error (.fileNotFound ("Directory " ++ part ++ " not found in path."))

/-- `DirectoryNode.get_file(path)`: walk `path[1:]` then look up `path[-1]`,
which must name a `FileNode`. -/
def get_file (cs : Children) (path : List String) : Except Err FileNode :=
  match get_file_walk cs (path.drop 1) with
  | .error e => .error e
  | .ok cs' =>
    let file_name := path.getLastD ""
    match dictGet cs' file_name with
    | some (.file f) => .ok f
    | _ => .error (.fileNotFound ("File " ++ file_name ++ " not found in path."))

/-- `DirectoryNode.list()`: the `name` attribute of every direct child. -/
def listNames (cs : Children) : List String :=
  cs.map fun (_, c) => match c with | .file f => f.name | .dir n _ => n

end DirectoryNode

/-! ## The store (src/nfs/fs/FileSystem.py)

Object references held by the traversal loops are modelled as key paths
from the root (the tree has no aliasing); `nodeAt` reads through such a
reference and `updateChildrenAt` writes through it.  The `threading.Lock`
only serializes the operations and has no sequential effect, so it is not
modelled. -/

/-- Dereference a key path. -/
def nodeAt : FsNode → List String → Option FsNode
  | n, [] => some n
  | .dir _ cs, k :: ks =>
    (match dictGet cs k with
     | some c => nodeAt c ks
     | none => none)
  | .file _, _ :: _ => none

/-- Replace the value stored under an existing key, in place. -/
def dictModify {α : Type} (d : List (String × α)) (k : String) (g : α → α) :
    List (String × α) :=
  match d with
  | [] => []
  | (k', v) :: rest => if k' = k then (k', g v) :: rest else (k', v) :: dictModify rest k g

/-- Rewrite the `children` of the directory a key path refers to. -/
def updateChildrenAt (t : FsNode) (kp : List String)
    (g : DirectoryNode.Children → DirectoryNode.Children) : FsNode :=
  match t, kp with
  | .dir n cs, [] => .dir n (g cs)
  | .file f, [] => .file f
  | .dir n cs, k :: ks => .dir n (dictModify cs k (fun c => updateChildrenAt c ks g))
  | .file f, _ :: _ => .file f

/-- The store state: the tree rooted at `DirectoryNode("/")` plus the
content-blob directory (`base_data_folder`), a map from file id to blob
bytes. -/
structure FileSystem where
  root : FsNode
  blobs : List (String × String)

/-- A fresh store: `FileSystem()` — root `DirectoryNode("/")`, empty blob
directory. -/
def FileSystem.empty : FileSystem := { root := .dir "/" [], blobs := [] }

namespace FileSystem

/-- `FileSystem._validate_and_split_path(path)`: `ValueError` unless the
path is absolute; returns the non-empty `Path.parts`. -/
def validate_and_split_path (path : String) : Except Err (List String) :=
  let parts := parsePath path
  if parts.head? = some "/" then .ok parts
  else .error (.valueError ("Path must be absolute: " ++ path))

/-- `FileSystem._traverse_directory(current_dir, part)` on a key-path
reference: a directory whose own `name` equals `part` is returned
unchanged (this is how the root part `"/"` is consumed), otherwise a
`DirectoryNode` child named `part` is entered, otherwise
`FileNotFoundError`. -/
def descendKey (root : FsNode) (kp : List String) (part : String) :
    Except Err (List String) :=
  match nodeAt root kp with
  | some (.dir n cs) =>
    if n = part then .ok kp
    else
      match dictGet cs part with
      | some (.dir _ _) => .ok (kp ++ [part])
      | _ => .error (.fileNotFound ("Directory " ++ part ++ " not found in path."))
  | some (.file f) =>
    if f.name = part then .ok kp
    else .error (.attributeError "FileNode object has no attribute children")
  | none => .error (.attributeError "stale reference")

/-- A `for part in parts: current_dir = self._traverse_directory(...)`
loop. -/
def descendAll (root : FsNode) (kp : List String) : List String → Except Err (List String)
  | [] => .ok kp
  | p :: ps =>
    match descendKey root kp p with
    | .ok kp' => descendAll root kp' ps
    | .error e => .error e

/-- `FileSystem.create_directory(path)`: traverse `parts[:-1]` (the quirk in
`_traverse_directory` consumes the leading `"/"`), then create the child;
returns the reference (key path) of the created directory. -/
def create_directory (fs : FileSystem) (path : String) :
    Except Err (List String) × FileSystem :=
  match validate_and_split_path path with
  | .error e => (.error e, fs)
  | .ok parts =>
    match descendAll fs.root [] parts.dropLast with
    | .error e => (.error e, fs)
    | .ok kp =>
      match nodeAt fs.root kp with
      | some (.dir _ cs) =>
        (match DirectoryNode.create_directory cs (parts.getLastD "") with
         | .ok (_, cs') =>
           (.ok (kp ++ [parts.getLastD ""]),
            { fs with root := updateChildrenAt fs.root kp (fun _ => cs') })
         | .error e => (.error e, fs))
      | _ => (.error (.attributeError "no attribute children"), fs)

/-- `FileSystem.create_file(path, content)`: traverse `parts[1:-1]`, create
the `FileNode` (its `file_path` is `Path(path)`), then write `content` to
the blob named by its id and store the byte count in `size` (the node is
already in the tree, so the tree sees the final size). -/
def create_file (fs : FileSystem) (path : String) (content : String) (now : Nat) :
    Except Err FileNode × FileSystem :=
  match validate_and_split_path path with
  | .error e => (.error e, fs)
  | .ok parts =>
    match descendAll fs.root [] ((parts.drop 1).dropLast) with
    | .error e => (.error e, fs)
    | .ok kp =>
      match nodeAt fs.root kp with
      | some (.dir _ cs) =>
        (match DirectoryNode.create_file cs (parts.getLastD "") (parsePath path) now with
         | .ok (new_file, _) =>
           let f' := { new_file with size := content.length }
           (.ok f',
            { root := updateChildrenAt fs.root kp
                (fun cs0 => dictSet cs0 (parts.getLastD "") (.file f')),
              blobs := dictSet fs.blobs new_file.file_id content })
         | .error e => (.error e, fs))
      | _ => (.error (.attributeError "no attribute children"), fs)

/-- The `for part in parts[1:-1]` loop of `FileSystem.open`: try to
traverse; on `FileNotFoundError` fall back to
`create_directory(Path(t_path).as_posix())` where `t_path` is the
accumulated `"/part"` prefix string; other exceptions (e.g.
`FileExistsError` from the fallback) propagate. -/
def openLoop : FileSystem → List String → String → List String →
    Except Err (List String) × FileSystem
  | fs, kp, _, [] => (.ok kp, fs)
  | fs, kp, t_path, part :: rest =>
    let t_path' := t_path ++ "/" ++ part
    match descendKey fs.root kp part with
    | .ok kp' => openLoop fs kp' t_path' rest
    | .error (.fileNotFound _) =>
      (match create_directory fs t_path' with
       | (.ok kpNew, fs') => openLoop fs' kpNew t_path' rest
       | (.error e, fs') => (.error e, fs'))
    | .error e => (.error e, fs)

/-- `FileSystem.open(file_path, file_node=None)`: auto-create missing
intermediate directories (via `openLoop`), then fetch
`current_dir.children.get(parts[-1])`; if absent, `create_file(file_path)`;
if a `file_node` argument is given, additionally
`current_dir.mutate_file(parts[-1], file_node)`.  (`open` is a Lean
keyword, hence the name `openFS`.) -/
def openFS (fs : FileSystem) (file_path : String) (file_node : Option FileNode)
    (now : Nat) : Except Err FsNode × FileSystem :=
  match validate_and_split_path file_path with
  | .error e => (.error e, fs)
  | .ok parts =>
    match openLoop fs [] "" ((parts.drop 1).dropLast) with
    | (.error e, fs1) => (.error e, fs1)
    | (.ok kp, fs1) =>
      let finalName := parts.getLastD ""
      match nodeAt fs1.root kp with
      | some (.dir _ cs) =>
        (match dictGet cs finalName with
         | some node =>
           (match file_node with
            | none => (.ok node, fs1)
            | some fn =>
              match DirectoryNode.mutate_file cs finalName fn now with
              | .ok (fn', cs') =>
                (.ok (.file fn'),
                 { fs1 with root := updateChildrenAt fs1.root kp (fun _ => cs') })
              | .error e => (.error e, fs1))
         | none =>
           match create_file fs1 file_path "" now with
           | (.ok f, fs2) =>
             (match file_node with
              | none => (.ok (.file f), fs2)
              | some fn =>
                match nodeAt fs2.root kp with
                | some (.dir _ cs2) =>
                  (match DirectoryNode.mutate_file cs2 finalName fn now with
                   | .ok (fn', cs') =>
                     (.ok (.file fn'),
                      { fs2 with root := updateChildrenAt fs2.root kp (fun _ => cs') })
                   | .error e => (.error e, fs2))
                | _ => (.error (.attributeError "no attribute children"), fs2))
           | (.error e, fs2) => (.error e, fs2))
      | _ => (.error (.attributeError "no attribute children"), fs1)

/-- `FileSystem.mutate(file, new_file_node)`: resolve `parts[1:-1]`, require
the final child to be a `FileNode`, stamp `modified_at` on the *new* node
and store it via `mutate_file`. -/
def mutate (fs : FileSystem) (file : String) (new_file_node : FileNode) (now : Nat) :
    Except Err FileNode × FileSystem :=
  match validate_and_split_path file with
  | .error e => (.error e, fs)
  | .ok parts =>
    match descendAll fs.root [] ((parts.drop 1).dropLast) with
    | .error e => (.error e, fs)
    | .ok kp =>
      match nodeAt fs.root kp with
      | some (.dir _ cs) =>
        (match dictGet cs (parts.getLastD "") with
         | some (.file _) =>
           let fn := { new_file_node with modified_at := now }
           (match DirectoryNode.mutate_file cs (parts.getLastD "") fn now with
            | .ok (fn', cs') =>
              (.ok fn', { fs with root := updateChildrenAt fs.root kp (fun _ => cs') })
            | .error e => (.error e, fs))
         | _ => (.error (.fileNotFound ("File " ++ file ++ " not found")), fs))
      | _ => (.error (.attributeError "no attribute children"), fs)

/-- `FileSystem.delete(file)`: resolve `parts[1:-1]`, require a `FileNode`,
delete its blob from disk if present, then remove it from the tree. -/
def delete (fs : FileSystem) (file : String) : Except Err FileNode × FileSystem :=
  match validate_and_split_path file with
  | .error e => (.error e, fs)
  | .ok parts =>
    match descendAll fs.root [] ((parts.drop 1).dropLast) with
    | .error e => (.error e, fs)
    | .ok kp =>
      match nodeAt fs.root kp with
      | some (.dir _ cs) =>
        (match dictGet cs (parts.getLastD "") with
         | some (.file f) =>
           let blobs' := dictDel fs.blobs f.file_id
           (match DirectoryNode.delete_file cs (parts.getLastD "") with
            | .ok (f', cs') =>
              (.ok f',
               { root := updateChildrenAt fs.root kp (fun _ => cs'), blobs := blobs' })
            | .error e => (.error e, { fs with blobs := blobs' }))
         | _ => (.error (.fileNotFound ("File " ++ file ++ " not found")), fs))
      | _ => (.error (.attributeError "no attribute children"), fs)

/-- `FileSystem.delete_directory(path)`: resolve `parts[1:-1]`, index
`current_dir.children[parts[-1]]` (`KeyError` if absent, `AttributeError`
if it is a file), fail `EnvironmentError` when non-empty, else delete via
`DirectoryNode.delete_directory` with its default `recursive=False`.  (The
`i < len(parts[:-1]) - 1` re-check in the source is dead code: `i` always
ends equal to `len(parts) - 2`.) -/
def delete_directory (fs : FileSystem) (path : String) : Except Err Unit × FileSystem :=
  match validate_and_split_path path with
  | .error e => (.error e, fs)
  | .ok parts =>
    match descendAll fs.root [] ((parts.drop 1).dropLast) with
    | .error e => (.error e, fs)
    | .ok kp =>
      match nodeAt fs.root kp with
      | some (.dir _ cs) =>
        (match dictGet cs (parts.getLastD "") with
         | none => (.error (.keyError (parts.getLastD "")), fs)
         | some (.file _) =>
           (.error (.attributeError "FileNode object has no attribute children"), fs)
         | some (.dir _ dcs) =>
           if dcs.length = 0 then
             match DirectoryNode.delete_directory cs (parts.getLastD "") false with
             | (.ok _, cs') =>
               (.ok (), { fs with root := updateChildrenAt fs.root kp (fun _ => cs') })
             | (.error e, _) => (.error e, fs)
           else (.error (.notEmpty ("Directory " ++ path ++ " is not empty.")), fs))
      | _ => (.error (.attributeError "no attribute children"), fs)

/-- `FileSystem.delete_file(path)`: like `delete` but traversing
`parts[:-1]` (the quirk consumes the leading `"/"`). -/
def delete_file (fs : FileSystem) (path : String) : Except Err Unit × FileSystem :=
  match validate_and_split_path path with
  | .error e => (.error e, fs)
  | .ok parts =>
    match descendAll fs.root [] parts.dropLast with
    | .error e => (.error e, fs)
    | .ok kp =>
      match nodeAt fs.root kp with
      | some (.dir _ cs) =>
        (match dictGet cs (parts.getLastD "") with
         | some (.file f) =>
           let blobs' := dictDel fs.blobs f.file_id
           (match DirectoryNode.delete_file cs (parts.getLastD "") with
            | .ok (_, cs') =>
              (.ok (),
               { root := updateChildrenAt fs.root kp (fun _ => cs'), blobs := blobs' })
            | .error e => (.error e, { fs with blobs := blobs' }))
         | _ => (.error (.fileNotFound ("File " ++ path ++ " not found")), fs))
      | _ => (.error (.attributeError "no attribute children"), fs)

/-- `FileSystem.rename_directory(old_path, new_name)`: traverse
`parts[:-1]` and call `DirectoryNode.rename_directory`; the returned
`(old_id, new_id)` pairs are *discarded* and no blob is migrated; tree
mutations persist even when the helper raises. -/
def rename_directory (fs : FileSystem) (old_path : String) (new_name : String) :
    Except Err Unit × FileSystem :=
  match validate_and_split_path old_path with
  | .error e => (.error e, fs)
  | .ok parts =>
    match descendAll fs.root [] parts.dropLast with
    | .error e => (.error e, fs)
    | .ok kp =>
      match nodeAt fs.root kp with
      | some (.dir _ cs) =>
        (match DirectoryNode.rename_directory cs (parts.getLastD "") new_name with
         | (.ok _, cs') =>
           (.ok (), { fs with root := updateChildrenAt fs.root kp (fun _ => cs') })
         | (.error e, cs') =>
           (.error e, { fs with root := updateChildrenAt fs.root kp (fun _ => cs') }))
      | _ => (.error (.attributeError "no attribute children"), fs)

/-- `FileSystem.rename_file(old_path, new_name)`: traverse `parts[:-1]`,
read the old id via `get_file(parts[1:])`, rename the node (its id
changes), then `os.rename` the blob from the old id to the new id. -/
def rename_file (fs : FileSystem) (old_path : String) (new_name : String) (now : Nat) :
    Except Err Unit × FileSystem :=
  match validate_and_split_path old_path with
  | .error e => (.error e, fs)
  | .ok parts =>
    match descendAll fs.root [] parts.dropLast with
    | .error e => (.error e, fs)
    | .ok kp =>
      match nodeAt fs.root kp with
      | some (.dir _ cs) =>
        (match DirectoryNode.get_file cs (parts.drop 1) with
         | .error e => (.error e, fs)
         | .ok oldf =>
           match DirectoryNode.rename_file cs (parts.getLastD "") new_name now with
           | .ok (f', cs') =>
             let fsT := { fs with root := updateChildrenAt fs.root kp (fun _ => cs') }
             (match dictGet fs.blobs oldf.file_id with
              | some content =>
                (.ok (),
                 { fsT with blobs := dictSet (dictDel fs.blobs oldf.file_id) f'.file_id content })
              | none => (.error (.fileNotFound "os.rename: source blob not found"), fsT))
           | .error e => (.error e, fs))
      | _ => (.error (.attributeError "no attribute children"), fs)

/-- `FileSystem.get_file_node(abs_path)`: `root.get_file(parts)` with the
error message rewritten. -/
def get_file_node (fs : FileSystem) (abs_path : String) : Except Err FileNode :=
  match validate_and_split_path abs_path with
  | .error e => .error e
  | .ok parts =>
    match fs.root with
    | .dir _ cs =>
      (match DirectoryNode.get_file cs parts with
       | .ok f => .ok f
       | .error _ => .error (.fileNotFound ("File " ++ abs_path ++ " not found")))
    | .file _ => .error (.attributeError "no attribute children")

/-- `FileSystem.get_file(abs_path)`: resolve the node, then read the blob
named by its id; a missing blob is also `FileNotFoundError`. -/
def get_file (fs : FileSystem) (abs_path : String) : Except Err String :=
  match get_file_node fs abs_path with
  | .error e => .error e
  | .ok f =>
    match dictGet fs.blobs f.file_id with
    | some content => .ok content
    | none => .error (.fileNotFound ("File " ++ abs_path ++ " not found"))

/-- `FileSystem.save_file(abs_path, data)`: resolve the node, overwrite the
blob named by its id, return the byte count written. -/
def save_file (fs : FileSystem) (abs_path : String) (data : String) :
    Except Err Nat × FileSystem :=
  match validate_and_split_path abs_path with
  | .error e => (.error e, fs)
  | .ok parts =>
    match fs.root with
    | .dir _ cs =>
      (match DirectoryNode.get_file cs parts with
       | .ok f =>
         (.ok data.length, { fs with blobs := dictSet fs.blobs f.file_id data })
       | .error _ => (.error (.fileNotFound ("File " ++ abs_path ++ " not found")), fs))
    | .file _ => (.error (.attributeError "no attribute children"), fs)

/-- The type-tagged recursive snapshot document written by
`FileSystem._serialize`. -/
inductive SnapshotDoc where
  | dir (name : String) (children : List (String × SnapshotDoc))
  | file (name : String) (size : Nat) (file_path : String) (file_id : String)
      (created_at : Nat) (modified_at : Nat)

/-- `FileSystem._serialize(node)`: directories carry `{name, children}`,
files carry `{name, size, file_path, file_id, created_at, modified_at}`. -/
def serialize : FsNode → SnapshotDoc
  | .dir n cs => .dir n (serializeList cs)
  | .file f =>
    .file f.name f.size (pathStr f.file_path) f.file_id f.created_at f.modified_at
where
  serializeList : List (String × FsNode) → List (String × SnapshotDoc)
    | [] => []
    | (k, c) :: rest => (k, serialize c) :: serializeList rest

/-- `FileSystem._deserialize(data)` at load time `now`: a file document is
rebuilt as `FileNode(name, Path(file_path))`, so its stored `size`,
`created_at` and `modified_at` (and stored `file_id`) are discarded and
re-initialised. -/
def deserialize (now : Nat) : SnapshotDoc → FsNode
  | .dir n cs => .dir n (deserializeList now cs)
  | .file name _ file_path _ _ _ => .file (FileNode.init name (parsePath file_path) now)
where
  deserializeList (now : Nat) : List (String × SnapshotDoc) → List (String × FsNode)
    | [] => []
    | (k, c) :: rest => (k, deserialize now c) :: deserializeList now rest

/-- `FileSystem.save(file_path)`: the snapshot document written to disk. -/
def save (fs : FileSystem) : SnapshotDoc := serialize fs.root

/-- `FileSystem.load(file_path)` at time `now`: replace the in-memory tree
with the deserialized document (blobs untouched). -/
def load (fs : FileSystem) (doc : SnapshotDoc) (now : Nat) : FileSystem :=
  { fs with root := deserialize now doc }

end FileSystem

/-! ## The lock manager (src/nfs/zk.py) -/

/-- The state of the ZooKeeper ensemble as seen by one
`ZooKeeperManager`: whether `start()` succeeded (`self.zk` is set) and
which znodes currently exist. -/
structure ZKState where
  connected : Bool
  nodes : List String
  deriving DecidableEq, Repr

namespace ZooKeeperManager

/-- `ZK_LOCK_NODE` from src/nfs/constants.py: the single, fixed lock
node. -/
def lock_node : String := "/nfslk"

/-- kazoo `ensure_path(p)`: create the node (persistently) if missing. -/
def ensure_path (st : ZKState) (p : String) : ZKState :=
  if p ∈ st.nodes then st else { st with nodes := p :: st.nodes }

/-- kazoo `create(p, ephemeral=True)`: `NodeExistsError` when the node is
already present. -/
def zkCreate (st : ZKState) (p : String) : Except Err ZKState :=
  if p ∈ st.nodes then .error (.nodeExists p)
  else .ok { st with nodes := p :: st.nodes }

/-- kazoo `delete(p)`: `NoNodeError` (a `KazooException`) when absent. -/
def zkDelete (st : ZKState) (p : String) : Except Err ZKState :=
  if p ∈ st.nodes then .ok { st with nodes := st.nodes.erase p }
  else .error (.noNode p)

/-- `ZooKeeperManager.acquire_lock()`: `False` when not connected;
otherwise `ensure_path(self.lock_node)` followed by
`create(self.lock_node, ephemeral=True)`, returning `True` on success and
`False` on `NodeExistsError`. -/
def acquire_lock (st : ZKState) : Bool × ZKState :=
  if st.connected then
    let st1 := ensure_path st lock_node
    match zkCreate st1 lock_node with
    | .ok st2 => (true, st2)
    | .error _ => (false, st1)
  else (false, st)

/-- `ZooKeeperManager.release_lock()`: delete the lock node, `False` on any
`KazooException`. -/
def release_lock (st : ZKState) : Bool × ZKState :=
  if st.connected then
    match zkDelete st lock_node with
    | .ok st' => (true, st')
    | .error _ => (false, st)
  else (false, st)

/-- `ZooKeeperManager.is_locked()`. -/
def is_locked (st : ZKState) : Bool :=
  if st.connected then decide (lock_node ∈ st.nodes) else false

end ZooKeeperManager

/-! ## The close/commit protocol (src/nfs/client.py, src/nfs/server.py) -/

/-- The `action` tag of a control-channel message envelope. -/
inductive NfsAction where
  | openA | closeA | readA | writeA
  deriving DecidableEq, Repr

/-- The `FileSystem` call the server's `handle_nfs` dispatcher performs
for each action (src/nfs/server.py): `open → fs.open(path)`,
`close → fs.mutate(path, file_node)`, `read → fs.get_file(path)`,
`write → fs.save_file(path, data)`. -/
inductive StoreCall where
  | openCall | mutateCall | getFileCall | saveFileCall
  deriving DecidableEq, Repr

/-- The dispatch table of `NFSServer.handle_nfs`. -/
def serverStoreCall : NfsAction → StoreCall
  | .openA => .openCall
  | .closeA => .mutateCall
  | .readA => .getFileCall
  | .writeA => .saveFileCall

/-- The control-channel requests `NFSClient.handle_close` sends for one
commit, in order: first a `WriteRequest` carrying the whole scratch
buffer, then a `CloseRequest` carrying the updated metadata. -/
def handle_close_requests : List NfsAction := [.writeA, .closeA]

/-- The server-side store calls performed by one client `close`, in
order. -/
def closeCommitCalls : List StoreCall := handle_close_requests.map serverStoreCall

/-! ## Auxiliary definitions for stating and proving the claims -/

/-- A well-formed path segment: non-empty, not `"."`, and slash-free (a
segment of a parsed POSIX path can be nothing else). -/
def goodSeg (s : String) : Prop := s ≠ "" ∧ s ≠ "." ∧ '/' ∉ s.data

/-- Build a path string the way `FileSystem.open` builds `t_path`:
`t_path += f"/{part}"` starting from `""`. -/
def pathOf (segs : List String) : String :=
  segs.foldl (fun acc s => acc ++ "/" ++ s) ""

/-- The character stream of `pathOf segs`. -/
def pd : List String → List Char
  | [] => []
  | s :: rest => '/' :: (s.data ++ pd rest)

/-- A straight-line directory chain ending in the given `tip` children:
`chainWith tip [d1, …, dn]` is the `children` dict
`{d1: {d2: … {dn: tip}}}`. -/
def chainWith (tip : DirectoryNode.Children) : List String → DirectoryNode.Children
  | [] => tip
  | d :: rest => [(d, FsNode.dir d (chainWith tip rest))]

/-! ### Concrete fixtures used by the claim theorems -/

/-- A file created at `/d/a.txt`. -/
def exFileA : FileNode := FileNode.init "a.txt" ["/", "d", "a.txt"] 100

/-- `exFileA` after `rename("b.txt")`. -/
def exFileA_renamed : FileNode := exFileA.rename "b.txt" 200

/-- A file at `/d/f.txt`. -/
def exDelF : FileNode := FileNode.init "f.txt" ["/", "d", "f.txt"] 0

/-- A file at `/d/sub/g.txt`. -/
def exDelG : FileNode := FileNode.init "g.txt" ["/", "d", "sub", "g.txt"] 0

/-- Children of a root holding `/d/f.txt` and `/d/sub/g.txt`. -/
def exDelTree : DirectoryNode.Children :=
  [("d", .dir "d" [("f.txt", .file exDelF), ("sub", .dir "sub" [("g.txt", .file exDelG)])])]

/-- A file entry with non-trivial size and timestamps, as produced by
earlier writes. -/
def exSnapFile : FileNode :=
  { name := "a.txt", file_path := ["/", "a.txt"], file_id := sha256hex "a.txt/a.txt"
    size := 5, created_at := 100, modified_at := 200 }

/-- A store holding `/a.txt` with `exSnapFile`'s metadata. -/
def exSnapFS : FileSystem := { root := .dir "/" [("a.txt", .file exSnapFile)], blobs := [] }

/-- `exSnapFS` after `save` followed by `load` at time 999. -/
def exSnapLoaded : FileSystem := exSnapFS.load exSnapFS.save 999

/-- The file `/dir1/file1.txt` of the spec's rename example. -/
def exF1 : FileNode := FileNode.init "file1.txt" ["/", "dir1", "file1.txt"] 0

/-- A store holding `/dir1/file1.txt` with blob content `"X"`. -/
def exRenameFS : FileSystem :=
  { root := .dir "/" [("dir1", .dir "dir1" [("file1.txt", .file exF1)])]
    blobs := [(exF1.file_id, "X")] }

/-- `exRenameFS` after `rename_directory("/dir1", "dir3")`. -/
def exRenamed : Except Err Unit × FileSystem := exRenameFS.rename_directory "/dir1" "dir3"

/-! ## The claims -/

/-- **C1** — The spec claims `id = hash(name ++ virtualPath)` is an invariant
preserved by every create/rename/move, the id reflecting the new name *and
path* after `renameFile`.  Creation does establish the invariant, but
`FileNode.rename` regenerates the id *before* updating `file_path`, so the
renamed entry carries `hash(newName ++ oldPath)` while its path is the new
one — the invariant is broken at the concrete input
`FileNode("a.txt", "/d/a.txt").rename("b.txt")`. -/
theorem C1_rename_id_derived_from_stale_path :
    exFileA.file_id = sha256hex (exFileA.name ++ pathStr exFileA.file_path)
    ∧ exFileA_renamed.file_path = ["/", "d", "b.txt"]
    ∧ exFileA_renamed.file_id = sha256hex ("b.txt" ++ pathStr exFileA.file_path)
    ∧ exFileA_renamed.file_id
        ≠ sha256hex (exFileA_renamed.name ++ pathStr exFileA_renamed.file_path) := by
  refine ⟨rfl, rfl, rfl, ?_⟩
  decide

/-- **C2 (counterexample)** — The claim says a `close` commits as
`mutate` *followed by* `saveFile`; the dispatch of the two requests
`handle_close` actually sends refutes that order. -/
theorem C2_counterexample_commit_order :
    closeCommitCalls ≠ [StoreCall.mutateCall, StoreCall.saveFileCall] := by decide

/-- **C2 (amended)** — On close the client first sends a `write` request
(server: `FileSystemStore.saveFile(path, buffer)`) and then a `close`
request (server: `FileSystemStore.mutate(path, metadata)`): the commit is
two independent, non-transactional server-side steps in the order
`saveFile` then `mutate` — the reverse of the claimed order. -/
theorem C2_commit_is_saveFile_then_mutate :
    closeCommitCalls = [StoreCall.saveFileCall, StoreCall.mutateCall] := rfl

/-- **C3 (counterexample)** — The claim says `acquire(key, sessionId)`
blocks the caller until the per-key lock is granted.  The repository's
coordinator takes no key and no session id, and on a connected ensemble
with *no* existing lock it still returns immediately with `False`
(ungranted), because `ensure_path` first creates the very node that
`create` then attempts. -/
theorem C3_counterexample_acquire_returns_ungranted :
    ZooKeeperManager.acquire_lock { connected := true, nodes := [] }
      = (false, { connected := true, nodes := ["/nfslk"] }) := rfl

/-- **C3 (amended)** — `ZooKeeperManager.acquire_lock` is a non-blocking
try-lock on the single fixed node `/nfslk` and, whenever the client is
connected, returns `False` without granting anything (`ensure_path`
pre-creates the node, so the ephemeral `create` always hits
`NodeExistsError`); blocking per-path FIFO locking is obtained by the
client delegating to kazoo's external `Lock` recipe instead. -/
theorem C3_acquire_lock_is_nonblocking_and_never_grants (st : ZKState)
    (h : st.connected = true) :
    ZooKeeperManager.acquire_lock st
      = (false, ZooKeeperManager.ensure_path st ZooKeeperManager.lock_node) := by
  unfold ZooKeeperManager.acquire_lock ZooKeeperManager.zkCreate ZooKeeperManager.ensure_path
  by_cases hm : ZooKeeperManager.lock_node ∈ st.nodes <;> simp [h, hm]

/-- **C3 (witness)** — the amended theorem at a concrete connected state. -/
theorem C3_acquire_lock_witness :
    ZooKeeperManager.acquire_lock { connected := true, nodes := ["/other"] }
      = (false, ZooKeeperManager.ensure_path { connected := true, nodes := ["/other"] }
           ZooKeeperManager.lock_node) :=
  C3_acquire_lock_is_nonblocking_and_never_grants { connected := true, nodes := ["/other"] } rfl

/-- **C4** — The claim says `deleteDirectory(recursive=true)` collects every
descendant file id, *removes the subtree*, and returns the ids.  On the
concrete tree `/d/{f.txt, sub/g.txt}` the call returns exactly the two ids
but leaves the `children` dict — including `d` and its whole subtree —
completely unchanged (the recursive branch of the source never deletes);
the empty-directory case does remove and return `[]`. -/
theorem C4_recursive_delete_returns_ids_but_keeps_subtree :
    DirectoryNode.delete_directory exDelTree "d" true
      = (.ok [exDelF.file_id, exDelG.file_id], exDelTree)
    ∧ DirectoryNode.delete_directory [("e", FsNode.dir "e" [])] "e" false = (.ok [], []) :=
  ⟨rfl, rfl⟩

/-- **C5** — The claim says `save` then `load` reproduces name, id, size and
timestamps of every entry.  `_serialize` does write size and timestamps,
but `_deserialize` rebuilds each file as `FileNode(name, Path(file_path))`,
so after the round trip of a store holding `/a.txt` (size 5, created 100,
modified 200) the entry keeps its name and id but has size 0 and both
timestamps equal to the load time 999. -/
theorem C5_load_discards_size_and_timestamps :
    nodeAt exSnapLoaded.root ["a.txt"] = some (.file (FileNode.init "a.txt" ["/", "a.txt"] 999))
    ∧ (FileNode.init "a.txt" ["/", "a.txt"] 999).name = exSnapFile.name
    ∧ (FileNode.init "a.txt" ["/", "a.txt"] 999).file_id = exSnapFile.file_id
    ∧ (FileNode.init "a.txt" ["/", "a.txt"] 999).size ≠ exSnapFile.size
    ∧ (FileNode.init "a.txt" ["/", "a.txt"] 999).created_at ≠ exSnapFile.created_at
    ∧ (FileNode.init "a.txt" ["/", "a.txt"] 999).modified_at ≠ exSnapFile.modified_at := by
  refine ⟨rfl, rfl, rfl, ?_, ?_, ?_⟩ <;> decide

/-- **C7** — The claim says renaming a directory regenerates every
descendant file's id, reports `(oldId, newId)` pairs, and migrates each
blob so the file is readable under its new path.  Renaming `/dir1` (holding
`file1.txt`, blob `"X"`) to `/dir3` rewrites the file's path and *reports*
a fresh id in the returned pair, but the id stored in the tree is the old
one (`generate_file_id`'s result is discarded), `FileSystem.rename_directory`
ignores the pairs so no blob moves — and `getFile("/dir3/file1.txt")` still
returns `"X"` only because both the id and the blob are unchanged.  On a
directory containing a subdirectory the helper raises `TypeError`
(`_collect_file_ids` is called with the wrong arity). -/
theorem C7_directory_rename_keeps_old_id_and_migrates_nothing :
    exRenamed.1 = .ok ()
    ∧ nodeAt exRenamed.2.root ["dir3", "file1.txt"]
        = some (.file { exF1 with file_path := ["/", "dir3", "file1.txt"] })
    ∧ ({ exF1 with file_path := ["/", "dir3", "file1.txt"] } : FileNode).file_id = exF1.file_id
    ∧ exF1.file_id ≠ sha256hex ("file1.txt" ++ pathStr ["/", "dir3", "file1.txt"])
    ∧ (DirectoryNode.rename_directory
        [("dir1", FsNode.dir "dir1" [("file1.txt", FsNode.file exF1)])] "dir1" "dir3").1
        = .ok [(exF1.file_id, sha256hex ("file1.txt" ++ "/dir3/file1.txt"))]
    ∧ exRenamed.2.blobs = exRenameFS.blobs
    ∧ exRenamed.2.get_file "/dir3/file1.txt" = .ok "X"
    ∧ (DirectoryNode.rename_directory [("d", FsNode.dir "d" [("s", FsNode.dir "s" [])])] "d" "e").1
        = .error (.typeError "_collect_file_ids() takes 2 positional arguments but 4 were given") := by
  refine ⟨rfl, rfl, rfl, ?_, rfl, rfl, rfl, rfl⟩
  decide

/-- **C8 (counterexample)** — The claim says `mutateFile` fails `NotFound`
exactly when `name` is absent *or the child under `name` is not a file*.
With a directory child under `"d"` the call nevertheless succeeds,
replacing the directory by the file entry. -/
theorem C8_counterexample_directory_child_replaced_without_error :
    DirectoryNode.mutate_file [("d", FsNode.dir "d" [])] "d" (FileNode.init "f" ["/", "f"] 0) 7
      = .ok ({ FileNode.init "f" ["/", "f"] 0 with modified_at := 7 },
             [("d", FsNode.file { FileNode.init "f" ["/", "f"] 0 with modified_at := 7 })]) := rfl

/-- **C8 (amended)** — `mutate_file(parent, name, newEntry)` stores the new
entry under `name` and stamps `modifiedAt = now`; it fails `NotFound`
exactly when `name` is empty (falsy) or absent from the parent's children —
the kind of the existing child is *not* checked, so a directory child is
replaced without error. -/
theorem C8_mutate_file_characterisation (cs : DirectoryNode.Children) (name : String)
    (f : FileNode) (now : Nat) :
    (∀ c, dictGet cs name = some c → name ≠ "" →
      DirectoryNode.mutate_file cs name f now
        = .ok ({ f with modified_at := now },
               dictSet cs name (.file { f with modified_at := now })))
    ∧ ((name = "" ∨ dictGet cs name = none) →
      ∃ m, DirectoryNode.mutate_file cs name f now = .error (.fileNotFound m)) := by
  constructor
  · intro c hc hn
    unfold DirectoryNode.mutate_file
    rw [if_neg hn, hc]
  · rintro (h | h)
    · exact ⟨_, by unfold DirectoryNode.mutate_file; rw [if_pos h]⟩
    · by_cases hn : name = ""
      · exact ⟨_, by unfold DirectoryNode.mutate_file; rw [if_pos hn]⟩
      · exact ⟨_, by unfold DirectoryNode.mutate_file; rw [if_neg hn, h]⟩

/-- **C8 (witness)** — the amended theorem applied at concrete inputs: a
directory child is replaced, an absent key fails `NotFound`. -/
theorem C8_mutate_file_witness :
    DirectoryNode.mutate_file [("d", FsNode.dir "d" [])] "d" (FileNode.init "g" ["/", "g"] 0) 9
      = .ok ({ FileNode.init "g" ["/", "g"] 0 with modified_at := 9 },
             [("d", FsNode.file { FileNode.init "g" ["/", "g"] 0 with modified_at := 9 })])
    ∧ ∃ m, DirectoryNode.mutate_file [] "x" (FileNode.init "g" ["/", "g"] 0) 9
        = .error (.fileNotFound m) :=
  ⟨(C8_mutate_file_characterisation [("d", FsNode.dir "d" [])] "d"
      (FileNode.init "g" ["/", "g"] 0) 9).1 (FsNode.dir "d" []) rfl (by decide),
   (C8_mutate_file_characterisation [] "x" (FileNode.init "g" ["/", "g"] 0) 9).2 (Or.inr rfl)⟩

/-- **C9** — `delete_directory(name, recursive=False)` on a directory with
at least one child raises `EnvironmentError("Directory is not empty.")`
and returns the `children` dict unchanged. -/
theorem C9_nonrecursive_delete_of_nonempty_fails_and_preserves_tree
    (cs : DirectoryNode.Children) (name dn : String) (dcs : DirectoryNode.Children)
    (hget : dictGet cs name = some (.dir dn dcs)) (hne : dcs ≠ []) :
    DirectoryNode.delete_directory cs name false
      = (.error (.notEmpty "Directory is not empty."), cs) := by
  unfold DirectoryNode.delete_directory
  rw [hget]
  simp [List.length_eq_zero, hne]

/-- **C9 (witness)** — the theorem at a concrete one-child directory. -/
theorem C9_nonrecursive_delete_witness :
    DirectoryNode.delete_directory
        [("d", FsNode.dir "d" [("x", FsNode.file (FileNode.init "x" ["/", "d", "x"] 0))])] "d" false
      = (.error (.notEmpty "Directory is not empty."),
         [("d", FsNode.dir "d" [("x", FsNode.file (FileNode.init "x" ["/", "d", "x"] 0))])]) :=
  C9_nonrecursive_delete_of_nonempty_fails_and_preserves_tree _ "d" "d" _ rfl (by simp)

/-- **C10** — Every public path-taking `FileSystem` operation first runs
`_validate_and_split_path`, which raises `ValueError` on a non-absolute
path before anything touches the tree: each call returns exactly that
error with the store unchanged. -/
theorem C10_relative_path_rejected_without_mutation
    (fs : FileSystem) (path : String) (fn : FileNode) (content newName : String)
    (now : Nat) (h : (parsePath path).head? ≠ some "/") :
    fs.openFS path none now
        = (.error (.valueError ("Path must be absolute: " ++ path)), fs)
    ∧ fs.mutate path fn now = (.error (.valueError ("Path must be absolute: " ++ path)), fs)
    ∧ fs.delete path = (.error (.valueError ("Path must be absolute: " ++ path)), fs)
    ∧ fs.create_directory path = (.error (.valueError ("Path must be absolute: " ++ path)), fs)
    ∧ fs.create_file path content now
        = (.error (.valueError ("Path must be absolute: " ++ path)), fs)
    ∧ fs.delete_directory path = (.error (.valueError ("Path must be absolute: " ++ path)), fs)
    ∧ fs.delete_file path = (.error (.valueError ("Path must be absolute: " ++ path)), fs)
    ∧ fs.rename_directory path newName
        = (.error (.valueError ("Path must be absolute: " ++ path)), fs)
    ∧ fs.rename_file path newName now
        = (.error (.valueError ("Path must be absolute: " ++ path)), fs)
    ∧ fs.get_file_node path = .error (.valueError ("Path must be absolute: " ++ path))
    ∧ fs.get_file path = .error (.valueError ("Path must be absolute: " ++ path))
    ∧ fs.save_file path content
        = (.error (.valueError ("Path must be absolute: " ++ path)), fs) := by
  have hv : FileSystem.validate_and_split_path path
      = .error (.valueError ("Path must be absolute: " ++ path)) := by
    unfold FileSystem.validate_and_split_path
    simp [h]
  refine ⟨?_, ?_, ?_, ?_, ?_, ?_, ?_, ?_, ?_, ?_, ?_, ?_⟩ <;>
    simp [FileSystem.openFS, FileSystem.mutate, FileSystem.delete,
          FileSystem.create_directory, FileSystem.create_file,
          FileSystem.delete_directory, FileSystem.delete_file,
          FileSystem.rename_directory, FileSystem.rename_file,
          FileSystem.get_file_node, FileSystem.get_file, FileSystem.save_file, hv]

/-- **C10 (witness)** — the theorem at the concrete relative path
`"a/b.txt"` on a fresh store. -/
theorem C10_relative_path_witness :
    FileSystem.empty.openFS "a/b.txt" none 0
        = (.error (.valueError ("Path must be absolute: " ++ "a/b.txt")), FileSystem.empty)
    ∧ FileSystem.empty.mutate "a/b.txt" exFileA 0
        = (.error (.valueError ("Path must be absolute: " ++ "a/b.txt")), FileSystem.empty)
    ∧ FileSystem.empty.delete "a/b.txt"
        = (.error (.valueError ("Path must be absolute: " ++ "a/b.txt")), FileSystem.empty)
    ∧ FileSystem.empty.create_directory "a/b.txt"
        = (.error (.valueError ("Path must be absolute: " ++ "a/b.txt")), FileSystem.empty)
    ∧ FileSystem.empty.create_file "a/b.txt" "c" 0
        = (.error (.valueError ("Path must be absolute: " ++ "a/b.txt")), FileSystem.empty)
    ∧ FileSystem.empty.delete_directory "a/b.txt"
        = (.error (.valueError ("Path must be absolute: " ++ "a/b.txt")), FileSystem.empty)
    ∧ FileSystem.empty.delete_file "a/b.txt"
        = (.error (.valueError ("Path must be absolute: " ++ "a/b.txt")), FileSystem.empty)
    ∧ FileSystem.empty.rename_directory "a/b.txt" "n"
        = (.error (.valueError ("Path must be absolute: " ++ "a/b.txt")), FileSystem.empty)
    ∧ FileSystem.empty.rename_file "a/b.txt" "n" 0
        = (.error (.valueError ("Path must be absolute: " ++ "a/b.txt")), FileSystem.empty)
    ∧ FileSystem.empty.get_file_node "a/b.txt"
        = .error (.valueError ("Path must be absolute: " ++ "a/b.txt"))
    ∧ FileSystem.empty.get_file "a/b.txt"
        = .error (.valueError ("Path must be absolute: " ++ "a/b.txt"))
    ∧ FileSystem.empty.save_file "a/b.txt" "c"
        = (.error (.valueError ("Path must be absolute: " ++ "a/b.txt")), FileSystem.empty) :=
  C10_relative_path_rejected_without_mutation FileSystem.empty "a/b.txt" exFileA "c" "n" 0
    (by decide)

/-- **C6 (counterexample)** — The claim says `open(path)` auto-creates
*every* missing intermediate directory.  On an empty store,
`open("/a/a/f.txt")` succeeds and returns a fresh file whose recorded path
is `/a/a/f.txt`, yet the intermediate directory `/a/a` was never created:
`_traverse_directory`'s `current_dir.name == part` shortcut silently
swallows the repeated segment, so the file lands in `/a` and resolving
`["a", "a"]` finds nothing. -/
theorem C6_counterexample_repeated_segment_skips_directory :
    (FileSystem.empty.openFS "/a/a/f.txt" none 0).1
      = .ok (.file (FileNode.init "f.txt" ["/", "a", "a", "f.txt"] 0))
    ∧ nodeAt (FileSystem.empty.openFS "/a/a/f.txt" none 0).2.root ["a", "a"] = none :=
  ⟨rfl, rfl⟩

/-! ### Helper lemmas for the amended C6 theorem -/

theorem pathOf_append_one (l : List String) (s : String) :
    pathOf (l ++ [s]) = pathOf l ++ "/" ++ s := by
  unfold pathOf
  rw [List.foldl_append]
  rfl

theorem pd_eq_data (segs : List String) : (pathOf segs).data = pd segs := by
  have h : ∀ (l : List String) (acc : String),
      (List.foldl (fun acc s => acc ++ "/" ++ s) acc l).data = acc.data ++ pd l := by
    intro l
    induction l with
    | nil => intro acc; simp [pd]
    | cons s rest ih =>
      intro acc
      have hslash : ("/" : String).data = ['/'] := rfl
      simp [List.foldl, ih, pd, String.data_append, hslash]
  have h0 : ("" : String).data = [] := rfl
  simpa [pathOf, h0] using h segs ""

theorem splitSegsAux_noSlash (cs : List Char) (h : '/' ∉ cs) :
    ∀ rest acc, splitSegsAux (cs ++ rest) acc = splitSegsAux rest (cs.reverse ++ acc) := by
  induction cs with
  | nil => intro rest acc; simp
  | cons c cs ih =>
    intro rest acc
    have hc : ¬(c = '/') := fun e => h (by simp [e])
    have h' : '/' ∉ cs := fun m => h (by simp [m])
    simp only [List.cons_append, splitSegsAux, if_neg hc, List.append_eq]
    rw [ih h' rest (c :: acc)]
    simp

theorem splitSegsAux_pd (segs : List String) (h : ∀ s ∈ segs, '/' ∉ s.data) :
    ∀ acc, splitSegsAux (pd segs) acc = String.mk acc.reverse :: segs := by
  induction segs with
  | nil => intro acc; rfl
  | cons s rest ih =>
    intro acc
    have hs : '/' ∉ s.data := h s (by simp)
    have h' : ∀ t ∈ rest, '/' ∉ t.data := fun t ht => h t (by simp [ht])
    show splitSegsAux ('/' :: (s.data ++ pd rest)) acc = String.mk acc.reverse :: s :: rest
    simp only [splitSegsAux, if_pos]
    rw [splitSegsAux_noSlash s.data hs (pd rest) [], List.append_nil, ih h' s.data.reverse]
    simp

theorem parsePath_pathOf (segs : List String) (hne : segs ≠ [])
    (h : ∀ s ∈ segs, goodSeg s) :
    parsePath (pathOf segs) = "/" :: segs := by
  have hfree : ∀ s ∈ segs, '/' ∉ s.data := fun s hs => (h s hs).2.2
  have hdata : (pathOf segs).toList = pd segs := pd_eq_data segs
  have htoks : splitSegsAux (pd segs) [] = "" :: segs := by
    simpa using splitSegsAux_pd segs hfree []
  have hhead : (pd segs).head? = some '/' := by
    cases segs with
    | nil => exact absurd rfl hne
    | cons s rest => rfl
  have h0 : (fun t => decide ¬(t = "" ∨ t = ".")) "" = false := rfl
  have hfilter : List.filter (fun t => decide ¬(t = "" ∨ t = ".")) segs = segs := by
    refine List.filter_eq_self.mpr fun t ht => ?_
    have hg := h t ht
    simp only [decide_eq_true_eq]
    rintro (e | e)
    exacts [hg.1 e, hg.2.1 e]
  simp only [parsePath, hdata, htoks, hhead, List.filter_cons, h0, hfilter, if_true]
  simp

theorem goodSeg_ne_root (s : String) (hg : goodSeg s) : "/" ≠ s := by
  intro e
  exact hg.2.2 (by rw [← e]; exact List.mem_singleton.mpr rfl)

theorem chainWith_append (tip : DirectoryNode.Children) (l₁ l₂ : List String) :
    chainWith tip (l₁ ++ l₂) = chainWith (chainWith tip l₂) l₁ := by
  induction l₁ with
  | nil => rfl
  | cons d l ih => simp [chainWith, ih]

theorem nodeAt_chainWith (nm : String) (tip : DirectoryNode.Children) :
    ∀ (pre suf : List String),
      nodeAt (.dir nm (chainWith tip (pre ++ suf))) pre
        = some (.dir (pre.getLastD nm) (chainWith tip suf)) := by
  intro pre
  induction pre generalizing nm with
  | nil => intro suf; rfl
  | cons p pre ih =>
    intro suf
    show nodeAt (.dir nm (chainWith tip (p :: (pre ++ suf)))) (p :: pre) = _
    simp only [chainWith, nodeAt, dictGet, if_pos]
    rw [ih p suf, List.getLastD_cons]

theorem updateChildrenAt_chainWith (nm : String) (tip : DirectoryNode.Children)
    (g : DirectoryNode.Children → DirectoryNode.Children) :
    ∀ pre, updateChildrenAt (.dir nm (chainWith tip pre)) pre g
        = .dir nm (chainWith (g tip) pre) := by
  intro pre
  induction pre generalizing nm with
  | nil => rfl
  | cons p pre ih => simp [chainWith, updateChildrenAt, dictModify, ih]

theorem descendAll_chainWith (nm : String) (tip : DirectoryNode.Children) :
    ∀ (suf pre : List String),
      List.Chain' (fun a b => a ≠ b) suf →
      (∀ s, suf.head? = some s → pre.getLastD nm ≠ s) →
      FileSystem.descendAll (.dir nm (chainWith tip (pre ++ suf))) pre suf
        = .ok (pre ++ suf) := by
  intro suf
  induction suf with
  | nil => intro pre _ _; simp [FileSystem.descendAll]
  | cons s suf ih =>
    intro pre hchain hhead
    have hne : pre.getLastD nm ≠ s := hhead s rfl
    have hkey : FileSystem.descendKey (.dir nm (chainWith tip (pre ++ s :: suf))) pre s
        = .ok (pre ++ [s]) := by
      unfold FileSystem.descendKey
      rw [nodeAt_chainWith nm tip pre (s :: suf)]
      simp only [chainWith, if_neg hne, dictGet, if_pos]
    rw [FileSystem.descendAll, hkey]
    show FileSystem.descendAll (FsNode.dir nm (chainWith tip (pre ++ s :: suf))) (pre ++ [s]) suf
        = Except.ok (pre ++ s :: suf)
    have hassoc : pre ++ s :: suf = (pre ++ [s]) ++ suf := by simp
    rw [hassoc]
    exact ih (pre ++ [s]) hchain.tail (by
      intro x hx
      rw [List.getLastD_concat]
      exact (List.chain'_cons'.mp hchain).1 x hx)

theorem openLoop_eq_of_descendAll (fs : FileSystem) :
    ∀ (parts kp kp' : List String) (t : String),
      FileSystem.descendAll fs.root kp parts = .ok kp' →
      FileSystem.openLoop fs kp t parts = (.ok kp', fs) := by
  intro parts
  induction parts with
  | nil =>
    intro kp kp' t h
    simp only [FileSystem.descendAll] at h
    cases h
    rfl
  | cons p ps ih =>
    intro kp kp' t h
    rw [FileSystem.descendAll] at h
    cases hk : FileSystem.descendKey fs.root kp p with
    | ok kp1 =>
      rw [hk] at h
      rw [FileSystem.openLoop, hk]
      exact ih kp1 kp' _ h
    | error e =>
      rw [hk] at h
      cases h

theorem create_directory_chain (blobs : List (String × String)) (done : List String) (p : String)
    (hgood : ∀ s ∈ done ++ [p], goodSeg s)
    (hchain : List.Chain' (fun a b => a ≠ b) done) :
    FileSystem.create_directory ⟨.dir "/" (chainWith [] done), blobs⟩ (pathOf (done ++ [p]))
      = (.ok (done ++ [p]), ⟨.dir "/" (chainWith [] (done ++ [p])), blobs⟩) := by
  have hparse : parsePath (pathOf (done ++ [p])) = "/" :: (done ++ [p]) :=
    parsePath_pathOf _ (by simp) hgood
  have hval : FileSystem.validate_and_split_path (pathOf (done ++ [p]))
      = .ok ("/" :: (done ++ [p])) := by
    simp [FileSystem.validate_and_split_path, hparse]
  have hcons : ("/" :: (done ++ [p])) = (("/" :: done) ++ [p]) := by simp
  have hdrop : ("/" :: (done ++ [p])).dropLast = "/" :: done := by
    rw [hcons]; exact List.dropLast_concat ..
  have hlastD : ("/" :: (done ++ [p])).getLastD "" = p := by
    rw [hcons]; exact List.getLastD_concat ..
  have hdesc0 : FileSystem.descendAll (FsNode.dir "/" (chainWith [] done)) [] ("/" :: done)
      = .ok done := by
    rw [FileSystem.descendAll]
    have hk : FileSystem.descendKey (FsNode.dir "/" (chainWith [] done)) [] "/" = .ok [] := rfl
    rw [hk]
    show FileSystem.descendAll (FsNode.dir "/" (chainWith [] done)) [] done = .ok done
    have hh : ∀ s, done.head? = some s → (([] : List String).getLastD "/") ≠ s := by
      intro s hs
      have hmem : s ∈ done := List.mem_of_mem_head? (by rw [hs]; rfl)
      exact goodSeg_ne_root s (hgood s (by simp [hmem]))
    simpa using descendAll_chainWith "/" [] done [] hchain hh
  have hnode : nodeAt (FsNode.dir "/" (chainWith [] done)) done
      = some (.dir (done.getLastD "/") []) := by
    simpa using nodeAt_chainWith "/" [] done []
  have hchainEq : chainWith [(p, FsNode.dir p [])] done = chainWith [] (done ++ [p]) := by
    rw [chainWith_append]; rfl
  have hupd : updateChildrenAt (FsNode.dir "/" (chainWith [] done)) done
      (fun _ => dictSet [] p (FsNode.dir p [])) = FsNode.dir "/" (chainWith [] (done ++ [p])) := by
    rw [updateChildrenAt_chainWith]
    rw [show dictSet ([] : DirectoryNode.Children) p (FsNode.dir p []) = [(p, FsNode.dir p [])]
        from rfl, hchainEq]
  simp only [FileSystem.create_directory, hval, hdrop, hdesc0, hnode, hlastD,
    DirectoryNode.create_directory, dictGet, hupd]

theorem openLoop_chain (blobs : List (String × String)) :
    ∀ (rest done : List String),
      (∀ s ∈ done ++ rest, goodSeg s) →
      List.Chain' (fun a b => a ≠ b) (done ++ rest) →
      FileSystem.openLoop ⟨.dir "/" (chainWith [] done), blobs⟩ done (pathOf done) rest
        = (.ok (done ++ rest), ⟨.dir "/" (chainWith [] (done ++ rest)), blobs⟩) := by
  intro rest
  induction rest with
  | nil => intro done _ _; simp [FileSystem.openLoop]
  | cons p rest ih =>
    intro done hgood hchain
    have hnode : nodeAt (FsNode.dir "/" (chainWith [] done)) done
        = some (.dir (done.getLastD "/") []) := by
      simpa using nodeAt_chainWith "/" [] done []
    have hbound := (List.chain'_append.mp hchain).2.2
    have hpneq : done.getLastD "/" ≠ p := by
      rcases hlast : done.getLast? with _ | x
      · have hdone : done = [] := List.getLast?_eq_none_iff.mp hlast
        rw [hdone]
        exact goodSeg_ne_root p (hgood p (by simp))
      · have hx : x ≠ p := hbound x (by rw [hlast]; rfl) p rfl
        rw [List.getLastD_eq_getLast?, hlast]
        exact hx
    have hkey : FileSystem.descendKey (FsNode.dir "/" (chainWith [] done)) done p
        = .error (.fileNotFound ("Directory " ++ p ++ " not found in path.")) := by
      unfold FileSystem.descendKey
      simp only [hnode]
      rw [if_neg hpneq]
      rfl
    rw [FileSystem.openLoop, hkey]
    show (match FileSystem.create_directory ⟨.dir "/" (chainWith [] done), blobs⟩
            (pathOf done ++ "/" ++ p) with
      | (.ok kpNew, fs') => FileSystem.openLoop fs' kpNew (pathOf done ++ "/" ++ p) rest
      | (.error e, fs') => (.error e, fs')) = _
    rw [← pathOf_append_one]
    have hg1 : ∀ s ∈ done ++ [p], goodSeg s := by
      intro s hs
      rcases List.mem_append.mp hs with h | h
      · exact hgood s (by simp [h])
      · exact hgood s (by simp [List.mem_singleton.mp h])
    have hc1 : List.Chain' (fun a b => a ≠ b) done := (List.chain'_append.mp hchain).1
    rw [create_directory_chain blobs done p hg1 hc1]
    show FileSystem.openLoop ⟨.dir "/" (chainWith [] (done ++ [p])), blobs⟩ (done ++ [p])
        (pathOf (done ++ [p])) rest = _
    have hg2 : ∀ s ∈ (done ++ [p]) ++ rest, goodSeg s := by
      intro s hs
      apply hgood
      simpa [List.append_assoc] using hs
    have hc2 : List.Chain' (fun a b => a ≠ b) ((done ++ [p]) ++ rest) := by
      rw [List.append_assoc]
      simpa using hchain
    have := ih (done ++ [p]) hg2 hc2
    rw [this]
    simp [List.append_assoc]

theorem create_file_chain (blobs : List (String × String)) (I : List String) (last : String)
    (now : Nat)
    (hgood : ∀ s ∈ I ++ [last], goodSeg s)
    (hchain : List.Chain' (fun a b => a ≠ b) I) :
    FileSystem.create_file ⟨.dir "/" (chainWith [] I), blobs⟩ (pathOf (I ++ [last])) "" now
      = (.ok (FileNode.init last ("/" :: (I ++ [last])) now),
         ⟨.dir "/" (chainWith [(last, .file (FileNode.init last ("/" :: (I ++ [last])) now))] I),
          dictSet blobs (FileNode.init last ("/" :: (I ++ [last])) now).file_id ""⟩) := by
  have hparse : parsePath (pathOf (I ++ [last])) = "/" :: (I ++ [last]) :=
    parsePath_pathOf _ (by simp) hgood
  have hval : FileSystem.validate_and_split_path (pathOf (I ++ [last]))
      = .ok ("/" :: (I ++ [last])) := by
    simp [FileSystem.validate_and_split_path, hparse]
  have hmid : (("/" :: (I ++ [last])).drop 1).dropLast = I := by
    simp only [List.drop_one, List.tail_cons]
    exact List.dropLast_concat ..
  have hlastD : ("/" :: (I ++ [last])).getLastD "" = last := by
    rw [show ("/" :: (I ++ [last])) = (("/" :: I) ++ [last]) by simp]
    exact List.getLastD_concat ..
  have hdesc : FileSystem.descendAll (FsNode.dir "/" (chainWith [] I)) [] I = .ok I := by
    have hh : ∀ s, I.head? = some s → (([] : List String).getLastD "/") ≠ s := by
      intro s hs
      have hmem : s ∈ I := List.mem_of_mem_head? (by rw [hs]; rfl)
      exact goodSeg_ne_root s (hgood s (by simp [hmem]))
    simpa using descendAll_chainWith "/" [] I [] hchain hh
  have hnode : nodeAt (FsNode.dir "/" (chainWith [] I)) I
      = some (.dir (I.getLastD "/") []) := by
    simpa using nodeAt_chainWith "/" [] I []
  have hcf : DirectoryNode.create_file [] last (parsePath (pathOf (I ++ [last]))) now
      = .ok (FileNode.init last ("/" :: (I ++ [last])) now,
             [(last, .file (FileNode.init last ("/" :: (I ++ [last])) now))]) := by
    rw [hparse]
    rfl
  have hupd : updateChildrenAt (FsNode.dir "/" (chainWith [] I)) I
      (fun cs0 => dictSet cs0 last (.file (FileNode.init last ("/" :: (I ++ [last])) now)))
      = FsNode.dir "/"
          (chainWith [(last, .file (FileNode.init last ("/" :: (I ++ [last])) now))] I) := by
    rw [updateChildrenAt_chainWith]
    rfl
  simp only [FileSystem.create_file, hval, hmid, hdesc, hnode, hcf, hlastD]
  show (Except.ok (FileNode.init last ("/" :: (I ++ [last])) now),
      ({ root := updateChildrenAt (FsNode.dir "/" (chainWith [] I)) I fun cs0 =>
           dictSet cs0 last (FsNode.file (FileNode.init last ("/" :: (I ++ [last])) now)),
         blobs := dictSet blobs (FileNode.init last ("/" :: (I ++ [last])) now).file_id "" }
        : FileSystem)) = _
  rw [hupd]

/-- **C6 (amended)** — For every absolute path `/s1/…/sn/name` whose
intermediate segments are well-formed and pairwise distinct from their
immediate predecessor (the `current_dir.name == part` shortcut in
`_traverse_directory` silently skips a segment equal to the directory it is
in, see the counterexample), `open` on an empty store creates every missing
intermediate directory, creates an empty file of size 0 at the final
segment, resolving every intermediate prefix yields a directory, and a
second `open` of the same path returns the existing entry with the store
unchanged. -/
theorem C6_open_autocreates_chain (I : List String) (last : String) (now now2 : Nat)
    (hgood : ∀ s ∈ I ++ [last], goodSeg s)
    (hchain : List.Chain' (fun a b => a ≠ b) I) :
    (FileSystem.empty.openFS (pathOf (I ++ [last])) none now).1
      = .ok (.file (FileNode.init last ("/" :: (I ++ [last])) now))
    ∧ (FileNode.init last ("/" :: (I ++ [last])) now).size = 0
    ∧ (∀ pre suf, I = pre ++ suf →
        ∃ dn dcs, nodeAt (FileSystem.empty.openFS (pathOf (I ++ [last])) none now).2.root pre
          = some (.dir dn dcs))
    ∧ (FileSystem.empty.openFS (pathOf (I ++ [last])) none now).2.openFS
        (pathOf (I ++ [last])) none now2
      = ((FileSystem.empty.openFS (pathOf (I ++ [last])) none now).1,
         (FileSystem.empty.openFS (pathOf (I ++ [last])) none now).2) := by
  have hgoodI : ∀ s ∈ I, goodSeg s := fun s hs => hgood s (by simp [hs])
  have hparse : parsePath (pathOf (I ++ [last])) = "/" :: (I ++ [last]) :=
    parsePath_pathOf _ (by simp) hgood
  have hval : FileSystem.validate_and_split_path (pathOf (I ++ [last]))
      = .ok ("/" :: (I ++ [last])) := by
    simp [FileSystem.validate_and_split_path, hparse]
  have hmid : (("/" :: (I ++ [last])).drop 1).dropLast = I := by
    simp only [List.drop_one, List.tail_cons]
    exact List.dropLast_concat ..
  have hlastD : ("/" :: (I ++ [last])).getLastD "" = last := by
    rw [show ("/" :: (I ++ [last])) = (("/" :: I) ++ [last]) by simp]
    exact List.getLastD_concat ..
  have hloop : FileSystem.openLoop FileSystem.empty [] "" I
      = (.ok I, ⟨.dir "/" (chainWith [] I), []⟩) := by
    have h := openLoop_chain [] I [] (by simpa using hgoodI) (by simpa using hchain)
    simpa [FileSystem.empty, pathOf, chainWith] using h
  have hnodeI : nodeAt (FsNode.dir "/" (chainWith [] I)) I
      = some (.dir (I.getLastD "/") []) := by
    simpa using nodeAt_chainWith "/" [] I []
  have hcf2 := create_file_chain [] I last now hgood hchain
  have hopen : FileSystem.empty.openFS (pathOf (I ++ [last])) none now
      = (.ok (.file (FileNode.init last ("/" :: (I ++ [last])) now)),
         ⟨.dir "/" (chainWith [(last, .file (FileNode.init last ("/" :: (I ++ [last])) now))] I),
          dictSet [] (FileNode.init last ("/" :: (I ++ [last])) now).file_id ""⟩) := by
    simp only [FileSystem.openFS, hval, hmid, hloop, hnodeI, hlastD, dictGet, hcf2]
  have hh : ∀ s, I.head? = some s → (([] : List String).getLastD "/") ≠ s := by
    intro s hs
    have hmem : s ∈ I := List.mem_of_mem_head? (by rw [hs]; rfl)
    exact goodSeg_ne_root s (hgoodI s hmem)
  have hdesc2 : FileSystem.descendAll
      (FsNode.dir "/" (chainWith
        [(last, .file (FileNode.init last ("/" :: (I ++ [last])) now))] I)) [] I = .ok I := by
    simpa using descendAll_chainWith "/"
      [(last, .file (FileNode.init last ("/" :: (I ++ [last])) now))] I [] hchain hh
  refine ⟨by rw [hopen], rfl, ?_, ?_⟩
  · intro pre suf hIps
    rw [hopen]
    subst hIps
    exact ⟨_, _, nodeAt_chainWith "/"
      [(last, .file (FileNode.init last ("/" :: (pre ++ suf ++ [last])) now))] pre suf⟩
  · rw [hopen]
    have hloop2 : FileSystem.openLoop
        ⟨.dir "/" (chainWith
          [(last, .file (FileNode.init last ("/" :: (I ++ [last])) now))] I),
         dictSet [] (FileNode.init last ("/" :: (I ++ [last])) now).file_id ""⟩ [] "" I
        = (.ok I,
           ⟨.dir "/" (chainWith
             [(last, .file (FileNode.init last ("/" :: (I ++ [last])) now))] I),
            dictSet [] (FileNode.init last ("/" :: (I ++ [last])) now).file_id ""⟩) :=
      openLoop_eq_of_descendAll _ I [] I "" hdesc2
    have hnode2 : nodeAt (FsNode.dir "/" (chainWith
        [(last, .file (FileNode.init last ("/" :: (I ++ [last])) now))] I)) I
        = some (.dir (I.getLastD "/")
            [(last, .file (FileNode.init last ("/" :: (I ++ [last])) now))]) := by
      simpa using nodeAt_chainWith "/"
        [(last, .file (FileNode.init last ("/" :: (I ++ [last])) now))] I []
    have hdg2 : dictGet [(last, FsNode.file (FileNode.init last ("/" :: (I ++ [last])) now))] last
        = some (.file (FileNode.init last ("/" :: (I ++ [last])) now)) := by
      simp [dictGet]
    simp only [FileSystem.openFS, hval, hmid, hloop2, hnode2, hlastD, hdg2]

/-- **C6 (witness)** — the amended theorem at the spec's own example path
`/new/deep/file.txt` on an empty store. -/
theorem C6_open_autocreates_chain_witness :
    (FileSystem.empty.openFS (pathOf (["new", "deep"] ++ ["file.txt"])) none 5).1
      = .ok (.file (FileNode.init "file.txt" ("/" :: (["new", "deep"] ++ ["file.txt"])) 5))
    ∧ (FileNode.init "file.txt" ("/" :: (["new", "deep"] ++ ["file.txt"])) 5).size = 0
    ∧ (∀ pre suf, ["new", "deep"] = pre ++ suf →
        ∃ dn dcs,
          nodeAt (FileSystem.empty.openFS (pathOf (["new", "deep"] ++ ["file.txt"])) none 5).2.root
            pre = some (.dir dn dcs))
    ∧ (FileSystem.empty.openFS (pathOf (["new", "deep"] ++ ["file.txt"])) none 5).2.openFS
        (pathOf (["new", "deep"] ++ ["file.txt"])) none 6
      = ((FileSystem.empty.openFS (pathOf (["new", "deep"] ++ ["file.txt"])) none 5).1,
         (FileSystem.empty.openFS (pathOf (["new", "deep"] ++ ["file.txt"])) none 5).2) :=
  C6_open_autocreates_chain ["new", "deep"] "file.txt" 5 6
    (by simp only [goodSeg]; decide) (by simp [List.chain'_cons])
